import Mathlib

/-!
Verification of the tail-glow turn-decision pipeline.

Shallow embedding of the Python sources:
  * `src/damage_calc/calculator.py`  (KO-chance arithmetic, item/ability variants)
  * `src/agent/nodes/matchup_calculator.py`  (1v1 fight simulation)
  * `src/speed/calculator.py`  (effective-speed modifiers)
  * `src/battle/teams_state.py`  (belief-state updates)
  * `src/agent/nodes/best_switches.py`  (switch scoring)
  * `src/agent/nodes/parse.py`, `src/agent/nodes/decide.py`,
    `src/showdown/client.py`  (response parsing and action execution)

Python strings are modelled as `List Char` (ASCII-faithful case mapping),
Python floats as exact rationals `ℚ`, Python ints as `ℤ`/`ℕ`.  Mutation is
modelled by explicit state passing, and code that can raise is modelled in
`Except`.
-/

namespace TailGlow

/-! ## Python string primitives -/

/-- Python `\s` whitespace class over ASCII: space, tab, newline, carriage
return, vertical tab, form feed. -/
def isPySpace (c : Char) : Bool :=
  c = ' ' || c = '\t' || c = '\n' || c = '\r' || c = '\x0b' || c = '\x0c'

/-- ASCII upper/lower pairs, used to embed Python `str.lower()`. -/
def asciiLowerTable : List (Char × Char) :=
  [('A', 'a'), ('B', 'b'), ('C', 'c'), ('D', 'd'), ('E', 'e'), ('F', 'f'),
   ('G', 'g'), ('H', 'h'), ('I', 'i'), ('J', 'j'), ('K', 'k'), ('L', 'l'),
   ('M', 'm'), ('N', 'n'), ('O', 'o'), ('P', 'p'), ('Q', 'q'), ('R', 'r'),
   ('S', 's'), ('T', 't'), ('U', 'u'), ('V', 'v'), ('W', 'w'), ('X', 'x'),
   ('Y', 'y'), ('Z', 'z')]

/-- Python `str.lower()` on a single character (ASCII fragment). -/
def pyToLower (c : Char) : Char := (asciiLowerTable.lookup c).getD c

/-- Python `str.lower()`. -/
def lowerList (s : List Char) : List Char := s.map pyToLower

/-- Python `str.lstrip()`. -/
def pyLStrip (s : List Char) : List Char := s.dropWhile isPySpace

/-- Python `str.rstrip()`. -/
def pyRStrip (s : List Char) : List Char := (s.reverse.dropWhile isPySpace).reverse

/-- Python `str.strip()`. -/
def pyStrip (s : List Char) : List Char := pyRStrip (pyLStrip s)

/-- Python substring containment `pat in s` (contiguous, `"" in s` is true). -/
def hasSubstr (pat : List Char) : List Char → Bool
  | [] => pat.isEmpty
  | c :: r => pat.isPrefixOf (c :: r) || hasSubstr pat r

/-- Index of the first occurrence of `pat` as a contiguous sublist of `s`. -/
def firstOcc (pat : List Char) : List Char → Option Nat
  | [] => if pat.isEmpty then some 0 else none
  | c :: r => if pat.isPrefixOf (c :: r) then some 0 else (firstOcc pat r).map (· + 1)

/-- Python truthiness of an optional string (`None` and `""` are falsy). -/
def optTruthy : Option (List Char) → Bool
  | none => false
  | some l => !l.isEmpty

/-! ## `DamageCalculator._calculate_ko_chance` (src/damage_calc/calculator.py 653-667)

The Python function returns `"guaranteed"`, an `f"{chance:.0f}%"` string, or
`None`; the constructor `percent` carries the unformatted chance value. -/

inductive KoChance where
  | guaranteed
  | percent (chance : ℚ)
  | noChance
  deriving DecidableEq

/-- `_calculate_ko_chance(min_dmg, max_dmg, current_hp)`. -/
def calculateKoChance (min_dmg max_dmg current_hp : ℤ) : KoChance :=
  if current_hp ≤ min_dmg then .guaranteed
  else if current_hp ≤ max_dmg then
    let range_size := max_dmg - min_dmg + 1
    let ko_rolls := max_dmg - current_hp + 1
    if 0 < ko_rolls then .percent ((ko_rolls : ℚ) / (range_size : ℚ) * 100)
    else .noChance
  else .noChance

/-! ## `MatchupCalculator._simulate_fight` (src/agent/nodes/matchup_calculator.py 272-312) -/

/-- The `while` loop of `_simulate_fight`; `fuel` counts the remaining loop
iterations permitted by the `turns < max_turns` bound, `t` the turns taken. -/
def fightLoop (od td : ℚ) (ws : Bool) : ℕ → ℚ → ℚ → ℕ → ℚ × ℚ × ℕ
  | 0, oh, th, t => (oh, th, t)
  | fuel + 1, oh, th, t =>
    if 0 < oh ∧ 0 < th then
      if ws then
        let th2 := th - od
        if th2 ≤ 0 then (oh, th2, t + 1)
        else fightLoop od td ws fuel (oh - td) th2 (t + 1)
      else
        let oh2 := oh - td
        if oh2 ≤ 0 then (oh2, th, t + 1)
        else fightLoop od td ws fuel oh2 (th - od) (t + 1)
    else (oh, th, t)

/-- `_simulate_fight(our_hp, their_hp, our_damage_per_turn, their_damage_per_turn,
we_outspeed)`, returning `(outcome, our_remaining_hp, their_remaining_hp, turns)`. -/
def simulateFight (our_hp their_hp od td : ℚ) (ws : Bool) : String × ℚ × ℚ × ℕ :=
  match fightLoop od td ws 20 our_hp their_hp 0 with
  | (oh2, th2, turns) =>
    if 0 < oh2 ∧ th2 ≤ 0 then ("win", max 0 oh2, 0, turns)
    else if 0 < th2 ∧ oh2 ≤ 0 then ("lose", 0, max 0 th2, turns)
    else ("draw", max 0 oh2, max 0 th2, turns)

/-! ## `SpeedCalculator._apply_speed_modifiers` (src/speed/calculator.py 19-33, 205-226) -/

/-- `SPEED_STAGE_MULTIPLIERS.get(speed_stage, 1.0)`; the dict literal of
lines 19-33 with the exact fractions the Python source writes. -/
def stageMult (stage : ℤ) : ℚ :=
  if stage = -6 then 2/8 else if stage = -5 then 2/7 else if stage = -4 then 2/6
  else if stage = -3 then 2/5 else if stage = -2 then 2/4 else if stage = -1 then 2/3
  else if stage = 0 then 1 else if stage = 1 then 3/2 else if stage = 2 then 4/2
  else if stage = 3 then 5/2 else if stage = 4 then 6/2 else if stage = 5 then 7/2
  else if stage = 6 then 8/2 else 1

/-- Python `int()` applied to a numeric value: truncation toward zero. -/
def pyInt (q : ℚ) : ℤ := if q < 0 then -Int.floor (-q) else Int.floor q

/-- `_apply_speed_modifiers(base_speed, pokemon, tailwind)`; `speed_stage`
stands for `pokemon.boosts.get("spe", 0)` and `is_par` for
`pokemon.status == Status.PAR`. -/
def applySpeedModifiers (base_speed speed_stage : ℤ) (is_par tailwind : Bool) : ℤ :=
  let speed := pyInt ((base_speed : ℚ) * stageMult speed_stage)
  let speed := if is_par then pyInt ((speed : ℚ) * (1/2)) else speed
  let speed := if tailwind then pyInt ((speed : ℚ) * 2) else speed
  speed

/-! ## `DamageCalculator._calculate_with_variants` (src/damage_calc/calculator.py 286-408) -/

/-- The two fields of a poke-env `Pokemon` that `_calculate_with_variants`
mutates (`_item`, `_ability`). -/
structure PokeVar where
  item : Option (List Char)
  ability : Option (List Char)

/-- `DamageResult` (src/damage_calc/calculator.py): the fields used by the
variant loop and the switch ranking. -/
structure DamageResultR where
  move : List Char
  min_percent : ℚ
  max_percent : ℚ
  ko_chance : KoChance
  is_estimated : Bool
  assumed_item : Option (List Char)
  assumed_ability : Option (List Char)

/-- The assumption-merging branch of the variant loop (lines 379-386):
`existing.assumed_x = f"{existing}/{result}"` unless already contained. -/
def mergeAssumption (ex nw : Option (List Char)) : Option (List Char) :=
  if optTruthy nw && optTruthy ex then
    let e := ex.getD []
    let n := nw.getD []
    if hasSubstr n e then ex else some (e ++ ['/'] ++ n)
  else ex

/-- Merge a duplicate-range result into the stored one. -/
def mergeResult (ex nw : DamageResultR) : DamageResultR :=
  { ex with
    assumed_item := mergeAssumption ex.assumed_item nw.assumed_item
    assumed_ability := mergeAssumption ex.assumed_ability nw.assumed_ability }

/-- The four nested `for` loops of `_calculate_with_variants`, flattened over
the combination list; threads the mutated attacker/defender state, the
`results` list and the `seen_ranges` keys.  `calcSingle` stands for
`self._calculate_single`; an `Except.error` models that call raising. -/
def runVariants
    (calcSingle : PokeVar → PokeVar → Option (List Char) → Option (List Char) →
      Except Unit (Option DamageResultR))
    (vary_attacker vary_defender : Bool) :
    List (List Char × List Char × Option (List Char) × Option (List Char)) →
    PokeVar → PokeVar → List DamageResultR → List (ℚ × ℚ) →
    Except Unit (List DamageResultR) × PokeVar × PokeVar
  | [], a, d, results, _ => (.ok results, a, d)
  | (ai, di, aa, da) :: rest, a, d, results, seen =>
    let a := if vary_attacker then
        { a with item := some ai, ability := if optTruthy aa then aa else a.ability }
      else a
    let d := if vary_defender then
        { d with item := some di, ability := if optTruthy da then da else d.ability }
      else d
    let assumed_item := if vary_attacker then some ai
      else if vary_defender then some di else none
    let assumed_ability := if vary_attacker then aa
      else if vary_defender then da else none
    match calcSingle a d assumed_item assumed_ability with
    | .error e => (.error e, a, d)
    | .ok none => runVariants calcSingle vary_attacker vary_defender rest a d results seen
    | .ok (some r) =>
      let key := (r.min_percent, r.max_percent)
      if seen.contains key then
        runVariants calcSingle vary_attacker vary_defender rest a d
          (results.map fun ex =>
            if (ex.min_percent, ex.max_percent) = key then mergeResult ex r else ex)
          seen
      else
        runVariants calcSingle vary_attacker vary_defender rest a d
          (results ++ [r]) (seen ++ [key])

/-- `_calculate_with_variants`: saves the original `_item`/`_ability` fields,
runs the variant loop inside `try`, and restores the fields in `finally` on
both the normal and the raising path.  The variant lists stand for the values
derived from `teams_state` in lines 302-331; the final component pair is the
post-call state of the two shared `Pokemon` objects. -/
def calculateWithVariants
    (attacker defender : PokeVar)
    (attacker_items defender_items : List (List Char))
    (attacker_abilities defender_abilities : List (Option (List Char)))
    (vary_attacker vary_defender : Bool)
    (calcSingle : PokeVar → PokeVar → Option (List Char) → Option (List Char) →
      Except Unit (Option DamageResultR)) :
    Except Unit (List DamageResultR) × PokeVar × PokeVar :=
  let original_attacker_item := attacker.item
  let original_defender_item := defender.item
  let original_attacker_ability := attacker.ability
  let original_defender_ability := defender.ability
  let combos := attacker_items.flatMap fun ai => defender_items.flatMap fun di =>
    attacker_abilities.flatMap fun aa => defender_abilities.map fun da => (ai, di, aa, da)
  match runVariants calcSingle vary_attacker vary_defender combos attacker defender [] [] with
  | (res, a, d) =>
    let a := { a with item := original_attacker_item, ability := original_attacker_ability }
    let d := { d with item := original_defender_item, ability := original_defender_ability }
    let res := match res with
      | .ok results =>
        .ok (match results with
          | [r] =>
            if optTruthy r.assumed_item || optTruthy r.assumed_ability then
              [{ r with assumed_item := none, assumed_ability := none }]
            else [r]
          | other => other)
      | .error e => .error e
    (res, a, d)

/-! ## `TeamsState` belief updates (src/battle/teams_state.py 217-240) -/

/-- The battle-dynamic and revealed-information fields of `PokemonState`. -/
structure PokemonStateR where
  current_hp_percent : ℚ
  status : Option String
  boosts : List (String × ℤ)
  is_active : Bool
  is_fainted : Bool
  revealed_moves : List (List Char)
  revealed_ability : Option (List Char)
  revealed_item : Option (List Char)

/-- The fields of a snapshot `Pokemon` read by the two update methods. -/
structure SnapshotMon where
  current_hp_fraction : ℚ
  status : Option String
  boosts : List (String × ℤ)
  active : Bool
  fainted : Bool
  moves : List (List Char)
  ability : Option (List Char)
  item : Option (List Char)

/-- `move_id.lower().replace(" ", "").replace("-", "")`. -/
def normalizeMoveId (m : List Char) : List Char :=
  (lowerList m).filter fun c => c != ' ' && c != '-'

/-- `TeamsState._update_dynamic_state`. -/
def updateDynamicState (st : PokemonStateR) (pk : SnapshotMon) : PokemonStateR :=
  { st with
    current_hp_percent := pk.current_hp_fraction * 100
    status := pk.status
    boosts := pk.boosts
    is_active := pk.active
    is_fainted := pk.fainted }

/-- One iteration of the revealed-moves loop in `_update_revealed_info`. -/
def addRevealedMove (st : PokemonStateR) (move_id : List Char) : PokemonStateR :=
  if (st.revealed_moves.map normalizeMoveId).contains (normalizeMoveId move_id) then st
  else { st with revealed_moves := st.revealed_moves ++ [move_id] }

/-- `TeamsState._update_revealed_info`. -/
def updateRevealedInfo (st : PokemonStateR) (pk : SnapshotMon) : PokemonStateR :=
  let st := pk.moves.foldl addRevealedMove st
  let st := if optTruthy pk.ability ∧ ¬ optTruthy st.revealed_ability then
      { st with revealed_ability := pk.ability }
    else st
  let st := if optTruthy pk.item ∧ pk.item ≠ some ("unknown_item".data) ∧
      ¬ optTruthy st.revealed_item then
      { st with revealed_item := pk.item }
    else st
  st

/-- The per-turn update applied to an opposing species already tracked
(`_update_their_team`, lines 96-99): dynamic state, then revealed info. -/
def updateTheirPokemon (st : PokemonStateR) (pk : SnapshotMon) : PokemonStateR :=
  updateRevealedInfo (updateDynamicState st pk) pk

/-! ## `best_switches._calculate_switch_score` (src/agent/nodes/best_switches.py 135-282)

The cosmetic string fields built by the Python code (`damage_on_switch`,
`matchup_result`, `reasoning`) are presentation only and are omitted; the
numeric fields and the `survives` flag are embedded in full. -/

/-- `MatchupResult` of the damage calculator: the fields used by switch
ranking. -/
structure MatchupResultR where
  attacker : List Char
  defender : List Char
  results : List DamageResultR

/-- One entry of `matchup_results` (a `MatchupOutcome` as stored by
`calculate_all_matchups`). -/
structure MatchupData where
  outcome : String
  our_remaining_hp_percent : ℚ
  their_remaining_hp_percent : ℚ

/-- `_get_rock_effectiveness(types)`. -/
def getRockEffectiveness (types : List (List Char)) : ℚ :=
  types.foldl
    (fun m t =>
      let tl := lowerList t
      if tl = "fire".data ∨ tl = "ice".data ∨ tl = "flying".data ∨ tl = "bug".data then
        m * 2
      else if tl = "fighting".data ∨ tl = "ground".data ∨ tl = "steel".data then
        m * (1/2)
      else m)
    1

/-- `{1: 12.5, 2: 16.67, 3: 25.0}.get(spikes_layers, 0)`. -/
def spikesDamageOf (layers : ℕ) : ℚ :=
  if layers = 1 then 25/2 else if layers = 2 then 1667/100
  else if layers = 3 then 25 else 0

/-- `pokemon.ability and "levitate" in pokemon.ability.lower()`. -/
def abilityHasLevitate : Option (List Char) → Bool
  | some a => hasSubstr ("levitate".data) (lowerList a)
  | none => false

/-- `_calculate_hazard_damage(pokemon, battle)`; `pokemon_types` stands for
`[t.name for t in pokemon.types if t]`, `has_stealth_rock` and
`spikes_layers` for the side-condition lookups.  (When no hazard is present
the Python early `return 0.0` and the straight-line sum agree.) -/
def calculateHazardDamage (pokemon_types : List (List Char)) (ability : Option (List Char))
    (has_stealth_rock : Bool) (spikes_layers : ℕ) : ℚ :=
  let types := pokemon_types.map lowerList
  let damage : ℚ := 0
  let damage := if has_stealth_rock then damage + (25/2) * getRockEffectiveness types
    else damage
  let damage :=
    if 0 < spikes_layers ∧ ¬ types.contains ("flying".data) then
      if abilityHasLevitate ability then damage
      else damage + spikesDamageOf spikes_layers
    else damage
  damage

/-- Python `max(results, key=lambda r: r.max_percent)` (first maximum wins). -/
def maxByMaxPercent : List DamageResultR → Option DamageResultR
  | [] => none
  | r :: rest => some (rest.foldl (fun best x => if best.max_percent < x.max_percent then x else best) r)

/-- The inner loop matching `result.move == expected_move.lower().replace(" ", "")`. -/
def findExpectedMoveResult (expected : List Char) : List DamageResultR → Option DamageResultR
  | [] => none
  | r :: rest =>
    if r.move = (lowerList expected).filter (fun c => c != ' ') then some r
    else findExpectedMoveResult expected rest

/-- The `for matchup in their_vs_bench` loop with its `break` after the first
defender match. -/
def findBenchMatchup (species : List Char) : List MatchupResultR → Option MatchupResultR
  | [] => none
  | m :: rest => if m.defender = species then some m else findBenchMatchup species rest

/-- Lines 150-170: expected-move damage with worst-case fallback. -/
def computeMoveDamage (species : List Char) (their_pokemon : Option (List Char))
    (expected_move : Option (List Char)) (their_vs_bench : List MatchupResultR) : ℚ :=
  if their_pokemon.isSome ∧ their_vs_bench.isEmpty = false then
    match findBenchMatchup species their_vs_bench with
    | none => 0
    | some matchup =>
      let md : ℚ :=
        match expected_move with
        | some e =>
          match findExpectedMoveResult e matchup.results with
          | some r => (r.min_percent + r.max_percent) / 2
          | none => 0
        | none => 0
      if md = 0 ∧ matchup.results.isEmpty = false then
        match maxByMaxPercent matchup.results with
        | some worst => (worst.min_percent + worst.max_percent) / 2
        | none => 0
      else md
  else 0

/-- The numeric outputs of `_calculate_switch_score`. -/
structure SwitchScore where
  species : List Char
  hazard_damage : ℚ
  move_damage : ℚ
  total_damage : ℚ
  survives : Bool
  hp_after : ℚ
  score : ℚ

/-- `_calculate_switch_score`; `matchup_data` is the result of
`matchup_results.get((species, their_species), {})` with `none` for the empty
dict. -/
def calculateSwitchScore (species : List Char) (current_hp_fraction : ℚ)
    (pokemon_types : List (List Char)) (ability : Option (List Char))
    (has_stealth_rock : Bool) (spikes_layers : ℕ)
    (their_pokemon : Option (List Char)) (expected_move : Option (List Char))
    (their_vs_bench : List MatchupResultR)
    (matchup_data : Option MatchupData) : SwitchScore :=
  let current_hp := current_hp_fraction * 100
  let hazard_damage := calculateHazardDamage pokemon_types ability has_stealth_rock spikes_layers
  let move_damage := computeMoveDamage species their_pokemon expected_move their_vs_bench
  let total_damage := hazard_damage + move_damage
  let survives := decide (0 < current_hp - total_damage)
  let hp_after := max 0 (current_hp - total_damage)
  let score : ℚ :=
    if survives then
      let s := (100 : ℚ) + hp_after
      if (matchup_data.map fun md => md.outcome) = some "win" then
        s + 50 + ((matchup_data.map fun md => md.our_remaining_hp_percent).getD 0) / 2
      else if (matchup_data.map fun md => md.outcome) = some "draw" then s + 25
      else s
    else -100
  { species := species, hazard_damage := hazard_damage, move_damage := move_damage,
    total_damage := total_damage, survives := survives, hp_after := hp_after,
    score := score }

/-! ## `parse_decision_node` (src/agent/nodes/parse.py 11-67)

The two `re.search` calls are embedded as string scanners with the
leftmost-match and quantifier-backtracking behaviour of the regexes
`ACTION:\s*(.+?)(?:\n|$)` (IGNORECASE) and
`REASONING:\s*(.+?)(?=\nACTION:|$)` (IGNORECASE, DOTALL). -/

/-- Capture of `\s*(.+?)(?:\n|$)` at the text following the `ACTION:` marker:
maximal whitespace run, then a nonempty non-newline capture up to the next
newline or the end; if everything after the marker is whitespace the engine
backtracks into the run and captures its last non-newline character. -/
def captureAfter (t : List Char) : Option (List Char) :=
  let ws := t.takeWhile isPySpace
  match t.drop ws.length with
  | [] =>
    match (t.filter fun c => c != '\n').getLast? with
    | some c => some [c]
    | none => none
  | c :: rest => some ((c :: rest).takeWhile fun x => x != '\n')

/-- `re.search(r"ACTION:\s*(.+?)(?:\n|$)", response, re.IGNORECASE)`: scan
start positions left to right; on a failed capture the engine moves to the
next occurrence of the marker. -/
def searchActionAux : List Char → Option (List Char)
  | [] => none
  | c :: r =>
    if ("action:".data).isPrefixOf (lowerList (c :: r)) then
      match captureAfter ((c :: r).drop 7) with
      | some cap => some cap
      | none => searchActionAux r
    else searchActionAux r

/-- Capture of `\s*(.+?)(?=\nACTION:|$)` (DOTALL) at the text following the
`REASONING:` marker: maximal whitespace run, then a lazy nonempty capture up
to the next case-insensitive `"\nACTION:"` or the end of the string; if the
whole remainder is whitespace the engine backtracks and captures the final
character. -/
def captureReasoning (t : List Char) : Option (List Char) :=
  let ws := t.takeWhile isPySpace
  match t.drop ws.length with
  | [] => (t.getLast?).map fun c => [c]
  | c :: rr =>
    match firstOcc ("\naction:".data) (lowerList rr) with
    | some k => some ((c :: rr).take (k + 1))
    | none => some (c :: rr)

/-- `re.search(r"REASONING:\s*(.+?)(?=\nACTION:|$)", response, re.IGNORECASE | re.DOTALL)`. -/
def searchReasoningAux : List Char → Option (List Char)
  | [] => none
  | c :: r =>
    if ("reasoning:".data).isPrefixOf (lowerList (c :: r)) then
      match captureReasoning ((c :: r).drop 10) with
      | some cap => some cap
      | none => searchReasoningAux r
    else searchReasoningAux r

/-- Backtracking of `\s+` into an all-whitespace remainder: try shorter
whitespace runs (still nonempty) until the greedy `(.+)` body can start on a
non-newline character. -/
def backtrackWs (r : List Char) : ℕ → Option (List Char)
  | 0 => none
  | k + 1 =>
    if k = 0 then none
    else
      match r[k]? with
      | some c =>
        if c = '\n' then backtrackWs r k
        else some ((r.drop k).takeWhile fun x => x != '\n')
      | none => backtrackWs r k

/-- Capture of `\s+(.+)` at the text following a switch marker. -/
def subSwitchCapture (r : List Char) : Option (List Char) :=
  let w := (r.takeWhile isPySpace).length
  if w = 0 then none
  else
    match r.drop w with
    | [] => backtrackWs r w
    | c :: rest => some ((c :: rest).takeWhile fun x => x != '\n')

/-- `re.search(pat + r"\s+(.+)", action_text, re.IGNORECASE)` for a literal
lowercase `pat` (`"switch to"` and `"switch"`). -/
def searchPatCapture (pat : List Char) : List Char → Option (List Char)
  | [] => none
  | c :: r =>
    if pat.isPrefixOf (lowerList (c :: r)) then
      match subSwitchCapture ((c :: r).drop pat.length) with
      | some cap => some cap
      | none => searchPatCapture pat r
    else searchPatCapture pat r

/-- Index of the last occurrence of character `c` in `s`. -/
def lastIdxOf (c : Char) (s : List Char) : Option ℕ :=
  match firstOcc [c] s.reverse with
  | none => none
  | some k => some (s.length - 1 - k)

/-- `re.sub(r"\s*\(.*\)", "", move_name)` for newline-free input (the move
name comes from a capture that cannot contain a newline): remove from the
whitespace run before the first `(` that is followed by some `)` through the
last `)`. -/
def pySubParen (s : List Char) : List Char :=
  match firstOcc ['('] s with
  | none => s
  | some i =>
    if (s.drop (i + 1)).contains ')' then
      match lastIdxOf ')' s with
      | some j => pyRStrip (s.take i) ++ s.drop (j + 1)
      | none => s
    else s

/-- `re.sub(r"\s*-.*$", "", move_name)` for newline-free input: remove from
the whitespace run before the first `-` to the end. -/
def pySubDash (s : List Char) : List Char :=
  match firstOcc ['-'] s with
  | none => s
  | some i => pyRStrip (s.take i)

/-- The state fields written by `parse_decision_node`. -/
structure ParseResult where
  action_type : String
  action_target : Option (List Char)
  reasoning : Option (List Char)
  error : Bool
  deriving DecidableEq

/-- `parse_decision_node(state)` as a function of `state["llm_response"]`. -/
def parseDecisionNode (response : List Char) : ParseResult :=
  let reasoning :=
    match searchReasoningAux response with
    | some cap =>
      let r := pyStrip cap
      some (if 280 < r.length then r.take 280 else r)
    | none => none
  match searchActionAux response with
  | some cap =>
    let action_text := pyStrip cap
    if hasSubstr ("switch".data) (lowerList action_text) then
      let target :=
        match searchPatCapture ("switch to".data) action_text with
        | some g => some (lowerList (pyStrip g))
        | none =>
          match searchPatCapture ("switch".data) action_text with
          | some g => some (lowerList (pyStrip g))
          | none => none
      { action_type := "switch", action_target := target, reasoning := reasoning,
        error := false }
    else
      let move_name := lowerList action_text
      let move_name := pySubParen move_name
      let move_name := pySubDash move_name
      let move_name := pyStrip move_name
      { action_type := "move", action_target := some move_name, reasoning := reasoning,
        error := false }
  | none =>
    { action_type := "move", action_target := none, reasoning := reasoning, error := true }

/-! ## `decide._create_fallback_response` (src/agent/nodes/decide.py 193-202) -/

/-- ASCII fragment of Python `str.upper()` on one character. -/
def pyToUpper (c : Char) : Char :=
  ((asciiLowerTable.map fun p => (p.2, p.1)).lookup c).getD c

/-- Python `str.title()` over ASCII: the first cased character of each run of
cased characters is uppercased, the rest lowercased. -/
def pyTitleAux : Bool → List Char → List Char
  | _, [] => []
  | prevCased, c :: r =>
    if c.isAlpha then (if prevCased then pyToLower c else pyToUpper c) :: pyTitleAux true r
    else c :: pyTitleAux false r

/-- Python `str.title()`. -/
def pyTitle (s : List Char) : List Char := pyTitleAux false s

/-- Python `str.replace(a, b)` for single characters. -/
def replaceChar (a b : Char) (s : List Char) : List Char :=
  s.map fun c => if c = a then b else c

/-- `_create_fallback_response(battle)`; the lists carry
`[m.id for m in battle.available_moves]` and
`[p.species for p in battle.available_switches]`. -/
def createFallbackResponse (available_moves available_switches : List (List Char)) :
    List Char :=
  match available_moves with
  | m :: _ => ("REASONING: LLM error fallback.\nACTION: ".data) ++ pyTitle (replaceChar '-' ' ' m)
  | [] =>
    match available_switches with
    | s :: _ => ("REASONING: LLM error fallback.\nACTION: Switch to ".data) ++ s
    | [] => "REASONING: No options available.\nACTION: Struggle".data

/-! ## `client._execute_action` (src/showdown/client.py 179-233) -/

/-- The order returned to the game client: a move order, a switch order, or
`choose_random_move` as the absolute last resort. -/
inductive Order where
  | useMove (move_id : List Char)
  | useSwitch (species : List Char)
  | random
  deriving DecidableEq

/-- `s.replace("-", "").replace(" ", "")`. -/
def removeSpacesDashes (s : List Char) : List Char :=
  s.filter fun c => c != '-' && c != ' '

/-- `s.replace("-", "")`. -/
def removeDashes (s : List Char) : List Char := s.filter fun c => c != '-'

/-- Python `str.split()` with no separator: split on whitespace runs,
dropping empty pieces. -/
def pySplitWsAux : List Char → List Char → List (List Char)
  | acc, [] => if acc.isEmpty then [] else [acc.reverse]
  | acc, c :: rest =>
    if isPySpace c then
      if acc.isEmpty then pySplitWsAux [] rest
      else acc.reverse :: pySplitWsAux [] rest
    else pySplitWsAux (c :: acc) rest

/-- Python `str.split()`. -/
def pySplitWs (s : List Char) : List (List Char) := pySplitWsAux [] s

/-- Lines 206-233 of `_execute_action`: the move-matching section (containment
match, partial match on `action_target.split()[0]`, first-available-move and
first-available-switch fallbacks, and `choose_random_move` as the absolute
last resort).  The `Except.error` path models the `IndexError` of
`action_target.split()[0]` on a whitespace-only target. -/
def executeActionMovePhase (action_target : Option (List Char))
    (available_moves available_switches : List (List Char)) : Except Unit Order :=
  let moveResult : Except Unit (Option Order) :=
    if optTruthy action_target = true ∧ available_moves ≠ [] then
      let t := action_target.getD []
      let target_clean := removeSpacesDashes t
      match available_moves.find? (fun mid =>
        let move_id_clean := removeSpacesDashes mid
        hasSubstr target_clean move_id_clean || hasSubstr move_id_clean target_clean) with
      | some mid => .ok (some (.useMove mid))
      | none =>
        match pySplitWs t with
        | [] => .error ()
        | w :: _ =>
          match available_moves.find? (fun mid => hasSubstr w (lowerList mid)) with
          | some mid => .ok (some (.useMove mid))
          | none => .ok none
    else .ok none
  match moveResult with
  | .error e => .error e
  | .ok (some o) => .ok o
  | .ok none =>
    match available_moves with
    | m :: _ => .ok (.useMove m)
    | [] =>
      match available_switches with
      | sp :: _ => .ok (.useSwitch sp)
      | [] => .ok .random

/-- `_execute_action(battle, result)`: resolves `(action_type, action_target)`
against the legal moves and switches.  Lines 190-204 (the switch branch),
falling through to the move phase. -/
def executeAction (action_type : String) (action_target : Option (List Char))
    (available_moves available_switches : List (List Char)) : Except Unit Order :=
  let switchResult : Option Order :=
    if action_type = "switch" ∧ optTruthy action_target = true then
      let t := action_target.getD []
      let target_clean := removeSpacesDashes t
      match available_switches.find? (fun sp =>
        let species_lower := removeDashes (lowerList sp)
        hasSubstr target_clean species_lower || hasSubstr species_lower target_clean) with
      | some sp => some (.useSwitch sp)
      | none =>
        match available_switches with
        | sp :: _ => some (.useSwitch sp)
        | [] => none
    else none
  match switchResult with
  | some o => .ok o
  | none => executeActionMovePhase action_target available_moves available_switches

/-! ## Concrete inputs used by counterexamples and witnesses -/

/-- A belief record currently marked fainted. -/
def cexBeliefState : PokemonStateR :=
  { current_hp_percent := 0, status := none, boosts := [], is_active := false,
    is_fainted := true, revealed_moves := [], revealed_ability := none,
    revealed_item := none }

/-- A snapshot in which the same species is reported healthy again. -/
def cexSnapshotMon : SnapshotMon :=
  { current_hp_fraction := 1, status := none, boosts := [], active := true,
    fainted := false, moves := [], ability := none, item := none }

/-- A belief record with revealed information already present. -/
def wBeliefState : PokemonStateR :=
  { current_hp_percent := 100, status := none, boosts := [], is_active := true,
    is_fainted := false, revealed_moves := [("surf".data)],
    revealed_ability := some ("levitate".data),
    revealed_item := some ("leftovers".data) }

/-- A snapshot revealing a new move and conflicting item/ability readings. -/
def wSnapshotMon : SnapshotMon :=
  { current_hp_fraction := 1/2, status := none, boosts := [], active := true,
    fainted := false, moves := [("ice-beam".data)],
    ability := some ("swift-swim".data), item := some ("choice-scarf".data) }

end TailGlow

namespace TailGlow

/-! ## Helper lemmas -/

theorem fightLoop_turns (od td : ℚ) (ws : Bool) :
    ∀ (fuel : ℕ) (oh th : ℚ) (t : ℕ),
      (fightLoop od td ws fuel oh th t).2.2 ≤ t + fuel ∧
      (0 < (fightLoop od td ws fuel oh th t).1 →
        0 < (fightLoop od td ws fuel oh th t).2.1 →
        (fightLoop od td ws fuel oh th t).2.2 = t + fuel) := by
  intro fuel
  induction fuel with
  | zero =>
    intro oh th t
    simp [fightLoop]
  | succ n ih =>
    intro oh th t
    simp only [fightLoop]
    split_ifs with halive hws hko hko2
    · exact ⟨by simp, fun _ hb => absurd (by simpa using hb) (not_lt.mpr hko)⟩
    · exact ⟨le_trans (ih _ _ _).1 (by omega),
        fun ha hb => ((ih _ _ _).2 ha hb).trans (by omega)⟩
    · exact ⟨by simp, fun ha _ => absurd (by simpa using ha) (not_lt.mpr hko2)⟩
    · exact ⟨le_trans (ih _ _ _).1 (by omega),
        fun ha hb => ((ih _ _ _).2 ha hb).trans (by omega)⟩
    · exact ⟨by simp, fun ha hb => absurd (And.intro (by simpa using ha) (by simpa using hb)) halive⟩

theorem stageMult_pos (s : ℤ) : 0 < stageMult s := by
  by_cases h : -6 ≤ s ∧ s ≤ 6
  · obtain ⟨h1, h2⟩ := h
    interval_cases s <;> norm_num [stageMult]
  · unfold stageMult
    repeat rw [if_neg (by omega)]
    norm_num

theorem pyInt_of_nonneg {q : ℚ} (h : 0 ≤ q) : pyInt q = Int.floor q := by
  unfold pyInt
  rw [if_neg (not_lt.mpr h)]

theorem pyInt_intCast (n : ℤ) : pyInt ((n : ℤ) : ℚ) = n := by
  unfold pyInt
  split_ifs with h
  · rw [show (-(n : ℚ)) = ((-n : ℤ) : ℚ) by push_cast; ring, Int.floor_intCast]
    omega
  · exact Int.floor_intCast n

theorem floor_half_floor (x : ℚ) : ⌊((⌊x⌋ : ℤ) : ℚ) / 2⌋ = ⌊x / 2⌋ := by
  apply le_antisymm
  · apply Int.floor_le_floor
    have := Int.floor_le x
    linarith
  · rw [ Int.le_floor]
    have h1 : ((2 * ⌊x / 2⌋ : ℤ) : ℚ) ≤ x := by
      have := Int.floor_le (x / 2)
      push_cast
      linarith
    have h2 : (2 * ⌊x / 2⌋ : ℤ) ≤ ⌊x⌋ := Int.le_floor.mpr h1
    have h3 : ((2 * ⌊x / 2⌋ : ℤ) : ℚ) ≤ ((⌊x⌋ : ℤ) : ℚ) := by exact_mod_cast h2
    push_cast at h3 ⊢
    linarith

theorem foldl_addRevealedMove_fields (ms : List (List Char)) :
    ∀ s : PokemonStateR,
      (ms.foldl addRevealedMove s).is_fainted = s.is_fainted ∧
      (ms.foldl addRevealedMove s).revealed_ability = s.revealed_ability ∧
      (ms.foldl addRevealedMove s).revealed_item = s.revealed_item := by
  induction ms with
  | nil => intro s; exact ⟨rfl, rfl, rfl⟩
  | cons m rest ih =>
    intro s
    rw [ List.foldl_cons]
    refine ⟨((ih _).1).trans ?_, ((ih _).2.1).trans ?_, ((ih _).2.2).trans ?_⟩ <;>
      (unfold addRevealedMove; split_ifs <;> rfl)

theorem foldl_addRevealedMove_mem (ms : List (List Char)) :
    ∀ (s : PokemonStateR) (m : List Char), m ∈ s.revealed_moves →
      m ∈ (ms.foldl addRevealedMove s).revealed_moves := by
  induction ms with
  | nil => intro s m hm; exact hm
  | cons x rest ih =>
    intro s m hm
    rw [ List.foldl_cons]
    apply ih
    unfold addRevealedMove
    split_ifs with h
    · exact hm
    · simp only [ List.mem_append]
      exact Or.inl hm

theorem updateRevealedInfo_ability_keep (s : PokemonStateR) (pk : SnapshotMon)
    (a : List Char) (ha : s.revealed_ability = some a) (hne : a ≠ []) :
    (updateRevealedInfo s pk).revealed_ability = some a := by
  have hfold := foldl_addRevealedMove_fields pk.moves s
  have htr : optTruthy (pk.moves.foldl addRevealedMove s).revealed_ability = true := by
    rw [hfold.2.1, ha]
    simp [optTruthy, hne]
  simp only [updateRevealedInfo]
  split_ifs with h1 h2 <;>
    simp_all [hfold.2.1, ha]

theorem updateRevealedInfo_item_keep (s : PokemonStateR) (pk : SnapshotMon)
    (i : List Char) (hi : s.revealed_item = some i) (hne : i ≠ []) :
    (updateRevealedInfo s pk).revealed_item = some i := by
  have hfold := foldl_addRevealedMove_fields pk.moves s
  have htr : optTruthy (pk.moves.foldl addRevealedMove s).revealed_item = true := by
    rw [hfold.2.2, hi]
    simp [optTruthy, hne]
  simp only [updateRevealedInfo]
  split_ifs with h1 h2 <;> simp_all [hfold.2.2, hi]

theorem updateRevealedInfo_moves_mem (s : PokemonStateR) (pk : SnapshotMon)
    (m : List Char) (hm : m ∈ s.revealed_moves) :
    m ∈ (updateRevealedInfo s pk).revealed_moves := by
  have hbase := foldl_addRevealedMove_mem pk.moves s m hm
  simp only [updateRevealedInfo]
  split_ifs <;> simpa using hbase

theorem updateDynamicState_revealed (s : PokemonStateR) (pk : SnapshotMon) :
    (updateDynamicState s pk).revealed_moves = s.revealed_moves ∧
    (updateDynamicState s pk).revealed_ability = s.revealed_ability ∧
    (updateDynamicState s pk).revealed_item = s.revealed_item :=
  ⟨rfl, rfl, rfl⟩

theorem lookup_pair {α β : Type} [BEq α] [LawfulBEq α] :
    ∀ {l : List (α × β)} {a : α} {b : β}, l.lookup a = some b → (a, b) ∈ l := by
  intro l
  induction l with
  | nil => intro a b h; simp [ List.lookup] at h
  | cons p rest ih =>
    intro a b h
    rcases p with ⟨k, v⟩
    rw [ List.lookup_cons] at h
    cases hak : (a == k) with
    | true =>
      rw [hak] at h
      simp only [Option.some.injEq] at h
      have ha : a = k := eq_of_beq hak
      subst ha
      subst h
      exact List.mem_cons_self _ _
    | false =>
      rw [hak] at h
      exact List.mem_cons_of_mem _ (ih h)

theorem pyToLower_space (c : Char) : isPySpace (pyToLower c) = isPySpace c := by
  unfold pyToLower
  cases h : asciiLowerTable.lookup c with
  | none => rfl
  | some d =>
    have hm := lookup_pair h
    have hface : ∀ p ∈ asciiLowerTable, isPySpace p.1 = false ∧ isPySpace p.2 = false := by
      decide
    have h1 := hface (c, d) hm
    simp only [Option.getD_some]
    rw [h1.1, h1.2]

theorem pyToLower_nl {c : Char} (h : pyToLower c = '\n') : c = '\n' := by
  unfold pyToLower at h
  cases hl : asciiLowerTable.lookup c with
  | none => rw [hl] at h; simpa using h
  | some d =>
    rw [hl] at h
    simp only [Option.getD_some] at h
    have hm := lookup_pair hl
    have hno : ∀ p ∈ asciiLowerTable, p.2 ≠ '\n' := by decide
    exact absurd h (hno (c, d) hm)

theorem nl_not_mem_lowerList {x : List Char} (h : '\n' ∉ x) : '\n' ∉ lowerList x := by
  intro hmem
  rcases List.mem_map.mp hmem with ⟨c, hc, hcl⟩
  exact h ((pyToLower_nl hcl) ▸ hc)

theorem pyLStrip_head : ∀ (u : List Char) {c : Char} {r : List Char},
    pyLStrip u = c :: r → isPySpace c = false := by
  intro u
  induction u with
  | nil => intro c r h; cases h
  | cons a u' ih =>
    intro c r h
    unfold pyLStrip at h
    rw [ List.dropWhile_cons] at h
    split_ifs at h with ha
    · exact ih h
    · cases h
      simpa using ha

theorem pyRStrip_prefix (v : List Char) : pyRStrip v <+: v := by
  unfold pyRStrip
  have h := List.dropWhile_suffix (l := v.reverse) isPySpace
  have h2 := h.reverse
  simpa using h2

theorem pyStrip_head : ∀ {u : List Char} {c : Char} {r : List Char},
    pyStrip u = c :: r → isPySpace c = false := by
  intro u c r h
  unfold pyStrip at h
  have hpre := pyRStrip_prefix (pyLStrip u)
  rw [h] at hpre
  obtain ⟨t, ht⟩ := hpre
  exact pyLStrip_head u (by rw [ ht.symm]; rfl)

theorem pyStrip_has_nonspace {u : List Char} (h : pyStrip u ≠ []) :
    ∃ x ∈ pyStrip u, isPySpace x = false := by
  rcases hcr : pyStrip u with _ | ⟨c, r⟩
  · exact absurd hcr h
  · exact ⟨c, List.mem_cons_self _ _, pyStrip_head hcr⟩

theorem pySplitWsAux_ne_nil : ∀ (s acc : List Char), acc ≠ [] → pySplitWsAux acc s ≠ [] := by
  intro s
  induction s with
  | nil =>
    intro acc h
    unfold pySplitWsAux
    simp [h]
  | cons c rest ih =>
    intro acc h
    unfold pySplitWsAux
    split_ifs with h1 h2
    · exact absurd (by simpa using h2) h
    · simp
    · exact ih _ (by simp)

theorem pySplitWs_ne_nil : ∀ {t : List Char}, (∃ x ∈ t, isPySpace x = false) →
    pySplitWs t ≠ [] := by
  intro t
  induction t with
  | nil => rintro ⟨x, hx, _⟩; cases hx
  | cons c rest ih =>
    rintro ⟨x, hx, hxs⟩
    show pySplitWsAux [] (c :: rest) ≠ []
    unfold pySplitWsAux
    split_ifs with h1 h2
    · rcases List.mem_cons.mp hx with rfl | hxr
      · rw [h1] at hxs; cases hxs
      · exact ih ⟨x, hxr, hxs⟩
    · exact absurd rfl h2
    · exact pySplitWsAux_ne_nil rest [c] (by simp)

theorem lower_strip_ok (g : List Char) :
    lowerList (pyStrip g) = [] ∨ ∃ x ∈ lowerList (pyStrip g), isPySpace x = false := by
  by_cases hg : pyStrip g = []
  · left; rw [hg]; rfl
  · right
    rcases pyStrip_has_nonspace hg with ⟨x, hx, hxs⟩
    exact ⟨pyToLower x, List.mem_map_of_mem _ hx, by rw [pyToLower_space]; exact hxs⟩

theorem parse_target_ok (s : List Char) :
    (parseDecisionNode s).action_target = none ∨
    ∃ t, (parseDecisionNode s).action_target = some t ∧
      (t = [] ∨ ∃ x ∈ t, isPySpace x = false) := by
  unfold parseDecisionNode
  cases hact : searchActionAux s with
  | none => simp only [hact]; left; trivial
  | some cap =>
    simp only [hact]
    by_cases hsw : hasSubstr ("switch".data) (lowerList (pyStrip cap)) = true
    · rw [if_pos hsw]
      cases h1 : searchPatCapture ("switch to".data) (pyStrip cap) with
      | some g =>
        simp only [h1]
        exact Or.inr ⟨lowerList (pyStrip g), rfl, lower_strip_ok g⟩
      | none =>
        simp only [h1]
        cases h2 : searchPatCapture ("switch".data) (pyStrip cap) with
        | some g =>
          simp only [h2]
          exact Or.inr ⟨lowerList (pyStrip g), rfl, lower_strip_ok g⟩
        | none => simp only [h2]; left; trivial
    · rw [if_neg hsw]
      right
      refine ⟨pyStrip (pySubDash (pySubParen (lowerList (pyStrip cap)))), rfl, ?_⟩
      by_cases hm : pyStrip (pySubDash (pySubParen (lowerList (pyStrip cap)))) = []
      · exact Or.inl hm
      · exact Or.inr (pyStrip_has_nonspace hm)

theorem movePhase_ok (tgt : Option (List Char)) (ms ss : List (List Char))
    (htgt : tgt = none ∨ ∃ t, tgt = some t ∧ (t = [] ∨ ∃ x ∈ t, isPySpace x = false))
    (hne : ms ≠ [] ∨ ss ≠ []) :
    ∃ o, executeActionMovePhase tgt ms ss = Except.ok o ∧
      ((∃ m ∈ ms, o = Order.useMove m) ∨ (∃ p ∈ ss, o = Order.useSwitch p)) := by
  unfold executeActionMovePhase
  by_cases hc2 : optTruthy tgt = true ∧ ms ≠ []
  · rw [if_pos hc2]
    obtain ⟨t0, ht0⟩ : ∃ t0, tgt = some t0 := by
      cases htg : tgt with
      | none => rw [htg] at hc2; cases hc2.1
      | some t => exact ⟨t, rfl⟩
    have ht0ne : t0 ≠ [] := by
      rw [ht0] at hc2
      have := hc2.1
      simp only [optTruthy, Bool.not_eq_true'] at this
      simpa using this
    have hts : ∃ x ∈ t0, isPySpace x = false := by
      rcases htgt with h | ⟨t, ht, hsp⟩
      · rw [h] at ht0; cases ht0
      · rw [ht0] at ht
        injection ht with ht
        subst ht
        rcases hsp with rfl | hs
        · exact absurd rfl ht0ne
        · exact hs
    subst ht0
    simp only [Option.getD_some]
    cases hf1 : ms.find? (fun mid =>
        hasSubstr (removeSpacesDashes t0) (removeSpacesDashes mid) ||
        hasSubstr (removeSpacesDashes mid) (removeSpacesDashes t0)) with
    | some mid =>
      simp only [hf1]
      exact ⟨Order.useMove mid, rfl, Or.inl ⟨mid, List.mem_of_find?_eq_some hf1, rfl⟩⟩
    | none =>
      simp only [hf1]
      cases hsp' : pySplitWs t0 with
      | nil => exact absurd hsp' (pySplitWs_ne_nil hts)
      | cons w ws =>
        simp only [hsp']
        cases hf2 : ms.find? (fun mid => hasSubstr w (lowerList mid)) with
        | some mid =>
          simp only [hf2]
          exact ⟨Order.useMove mid, rfl, Or.inl ⟨mid, List.mem_of_find?_eq_some hf2, rfl⟩⟩
        | none =>
          simp only [hf2]
          cases hmsc : ms with
          | cons m ms' =>
            simp only []
            exact ⟨Order.useMove m, rfl,
              Or.inl ⟨m, List.mem_cons_self _ _, rfl⟩⟩
          | nil => exact absurd hmsc hc2.2
  · rw [if_neg hc2]
    cases hmsc : ms with
    | cons m ms' =>
      simp only []
      exact ⟨Order.useMove m, rfl,
        Or.inl ⟨m, List.mem_cons_self _ _, rfl⟩⟩
    | nil =>
      cases hssc : ss with
      | cons sp ss' =>
        simp only []
        exact ⟨Order.useSwitch sp, rfl,
          Or.inr ⟨sp, List.mem_cons_self _ _, rfl⟩⟩
      | nil =>
        subst hmsc
        subst hssc
        rcases hne with h | h <;> exact absurd rfl h

theorem executeAction_ok (ty : String) (tgt : Option (List Char))
    (ms ss : List (List Char))
    (htgt : tgt = none ∨ ∃ t, tgt = some t ∧ (t = [] ∨ ∃ x ∈ t, isPySpace x = false))
    (hne : ms ≠ [] ∨ ss ≠ []) :
    ∃ o, executeAction ty tgt ms ss = Except.ok o ∧
      ((∃ m ∈ ms, o = Order.useMove m) ∨ (∃ p ∈ ss, o = Order.useSwitch p)) := by
  unfold executeAction
  by_cases hc1 : ty = "switch" ∧ optTruthy tgt = true
  · rw [if_pos hc1]
    cases hf : ss.find? (fun sp =>
        hasSubstr (removeSpacesDashes (tgt.getD [])) (removeDashes (lowerList sp)) ||
        hasSubstr (removeDashes (lowerList sp)) (removeSpacesDashes (tgt.getD []))) with
    | some sp =>
      simp only [hf]
      exact ⟨Order.useSwitch sp, rfl, Or.inr ⟨sp, List.mem_of_find?_eq_some hf, rfl⟩⟩
    | none =>
      simp only [hf]
      cases hss : ss with
      | cons sp ss' =>
        simp only []
        exact ⟨Order.useSwitch sp, rfl,
          Or.inr ⟨sp, List.mem_cons_self _ _, rfl⟩⟩
      | nil =>
        have hms : ms ≠ [] := by
          rcases hne with h | h
          · exact h
          · exact absurd hss h
        subst hss
        simp only []
        exact movePhase_ok tgt ms [] htgt (Or.inl hms)
  · rw [if_neg hc1]
    exact movePhase_ok tgt ms ss htgt hne

/-! ## Claim theorems -/

/-- Claim C2: the KO-chance classification is `guaranteed` iff
`min_damage ≥ current_hp`; otherwise, when `max_damage ≥ current_hp`, it is
the percentage `ko_rolls / range_size * 100` over the uniform discrete
damage-roll range; otherwise it is `None`. -/
theorem ko_chance_classification (mn mx hp : ℤ) :
    (calculateKoChance mn mx hp = KoChance.guaranteed ↔ hp ≤ mn) ∧
    (mn < hp → hp ≤ mx → calculateKoChance mn mx hp =
      KoChance.percent (((mx - hp + 1 : ℤ) : ℚ) / ((mx - mn + 1 : ℤ) : ℚ) * 100)) ∧
    (mn < hp → mx < hp → calculateKoChance mn mx hp = KoChance.noChance) := by
  simp only [calculateKoChance]
  split_ifs with h1 h2 h3
  · exact ⟨by simp [h1], fun h _ => absurd h1 (by omega), fun h _ => absurd h1 (by omega)⟩
  · exact ⟨by simp [h1], fun _ _ => by congr 1, fun _ h => absurd h2 (by omega)⟩
  · exact absurd (by omega : (0 : ℤ) < mx - hp + 1) h3
  · exact ⟨by simp [h1], fun _ h => absurd h h2, fun _ _ => rfl⟩

/-- Witness for C2 at `min = 5`, `max = 10`, `hp = 8`. -/
theorem ko_chance_classification_witness :
    calculateKoChance 5 10 8 =
      KoChance.percent (((10 - 8 + 1 : ℤ) : ℚ) / ((10 - 5 + 1 : ℤ) : ℚ) * 100) :=
  (ko_chance_classification 5 10 8).2.1 (by decide) (by decide)

/-- Claim C8: the 1v1 fight simulation iterates turn-by-turn HP subtraction
(faster side first, the second side only acting if still above 0) until one
side's HP is ≤ 0 or the 20-turn cap is reached; the side hitting zero first
loses, both down in the same iteration is a draw, and hitting the cap with
both alive is a draw. -/
theorem simulate_fight_classification (oh th od td : ℚ) (ws : Bool) :
    ((simulateFight oh th od td ws).1 = "win" ↔
      (0 < (fightLoop od td ws 20 oh th 0).1 ∧ (fightLoop od td ws 20 oh th 0).2.1 ≤ 0)) ∧
    ((simulateFight oh th od td ws).1 = "lose" ↔
      ((fightLoop od td ws 20 oh th 0).1 ≤ 0 ∧ 0 < (fightLoop od td ws 20 oh th 0).2.1)) ∧
    (((fightLoop od td ws 20 oh th 0).1 ≤ 0 ∧ (fightLoop od td ws 20 oh th 0).2.1 ≤ 0) →
      (simulateFight oh th od td ws).1 = "draw") ∧
    ((0 < (fightLoop od td ws 20 oh th 0).1 ∧ 0 < (fightLoop od td ws 20 oh th 0).2.1) →
      (simulateFight oh th od td ws).1 = "draw" ∧ (fightLoop od td ws 20 oh th 0).2.2 = 20) ∧
    ((simulateFight oh th od td ws).2.2.2 = (fightLoop od td ws 20 oh th 0).2.2 ∧
      (simulateFight oh th od td ws).2.2.2 ≤ 20) ∧
    (∀ (fuel : ℕ) (a b : ℚ) (t : ℕ), 0 < a → 0 < b →
      (fightLoop od td true (fuel + 1) a b t =
        if b - od ≤ 0 then (a, b - od, t + 1)
        else fightLoop od td true fuel (a - td) (b - od) (t + 1)) ∧
      (fightLoop od td false (fuel + 1) a b t =
        if a - td ≤ 0 then (a - td, b, t + 1)
        else fightLoop od td false fuel (a - td) (b - od) (t + 1))) := by
  have hturns := fightLoop_turns od td ws 20 oh th 0
  rcases hL : fightLoop od td ws 20 oh th 0 with ⟨a, b, t⟩
  rw [hL] at hturns
  have hsim : simulateFight oh th od td ws =
      (if 0 < a ∧ b ≤ 0 then ("win", max 0 a, 0, t)
       else if 0 < b ∧ a ≤ 0 then ("lose", 0, max 0 b, t)
       else ("draw", max 0 a, max 0 b, t)) := by
    unfold simulateFight
    rw [hL]
  refine ⟨?_, ?_, ?_, ?_, ?_, ?_⟩
  · rw [hsim]
    by_cases hc1 : 0 < a ∧ b ≤ 0
    · rw [if_pos hc1]
      simp [hc1]
    · rw [if_neg hc1]
      split_ifs with hc2 <;> simp [hc1]
  · rw [hsim]
    by_cases hc1 : 0 < a ∧ b ≤ 0
    · rw [if_pos hc1]
      have : ¬ (a ≤ 0 ∧ 0 < b) := by rintro ⟨x, y⟩; rcases hc1 with ⟨u, v⟩; linarith
      simp [this]
    · rw [if_neg hc1]
      by_cases hc2 : 0 < b ∧ a ≤ 0
      · rw [if_pos hc2]
        simp only [true_iff]
        exact ⟨hc2.2, hc2.1⟩
      · rw [if_neg hc2]
        have : ¬ (a ≤ 0 ∧ 0 < b) := by rintro ⟨x, y⟩; exact hc2 ⟨y, x⟩
        simp [this]
  · intro hdown
    rw [hsim]
    rw [if_neg (by rintro ⟨h1, _⟩; exact absurd hdown.1 (not_le.mpr h1)),
      if_neg (by rintro ⟨h1, _⟩; exact absurd hdown.2.le (not_le.mpr h1))]
  · intro halive
    have ht := hturns.2 (by simpa using halive.1) (by simpa using halive.2)
    rw [hsim]
    rw [if_neg (by rintro ⟨_, h2⟩; exact absurd h2 (not_le.mpr halive.2)),
      if_neg (by rintro ⟨_, h2⟩; exact absurd h2 (not_le.mpr halive.1))]
    exact ⟨rfl, by simpa using ht⟩
  · rw [hsim]
    constructor
    · split_ifs <;> rfl
    · have hle : t ≤ 20 := by simpa using hturns.1
      split_ifs <;> simpa using hle
  · intro fuel a' b' t' h1 h2
    constructor
    · simp [fightLoop, h1, h2]
    · simp [fightLoop, h1, h2]

/-- Witness for C8 at hp 100/50, damage 60/30, we outspeed. -/
theorem simulate_fight_classification_witness :
    (simulateFight 100 50 60 30 true).1 = "win" ∧
    (simulateFight 25 100 10 40 false).1 = "lose" :=
  ⟨((simulate_fight_classification 100 50 60 30 true).1).mpr (by norm_num [fightLoop]),
    ((simulate_fight_classification 25 100 10 40 false).2.1).mpr (by norm_num [fightLoop])⟩

/-- Claim C9 counterexample: with base speed 5 at stage −1 (not paralyzed, no
tailwind) the code computes `int(5 * (2/3)) = 3`, which differs from the exact
product `5 × 2/3 = 10/3` the claim states. -/
theorem speed_modifiers_exact_product_cex :
    ((applySpeedModifiers 5 (-1) false false : ℤ) : ℚ) ≠ (5 : ℚ) * stageMult (-1) ∧
    applySpeedModifiers 5 (-1) false false = 3 ∧
    (5 : ℚ) * stageMult (-1) = 10 / 3 := by
  have hsm : stageMult (-1) = 2 / 3 := by norm_num [stageMult]
  have hval : applySpeedModifiers 5 (-1) false false = 3 := by
    unfold applySpeedModifiers
    simp only [hsm, Bool.false_eq_true, if_false]
    rw [pyInt_of_nonneg (by norm_num)]
    rw [show (((5 : ℤ) : ℚ)) * (2 / 3) = 10 / 3 by norm_num]
    exact Int.floor_eq_iff.mpr (by norm_num)
  refine ⟨?_, hval, by rw [hsm]; norm_num⟩
  rw [hval, hsm]
  norm_num

/-- Claim C9 amended: effective speed is the claimed product with Python
`int()` truncation applied after the stage multiplier and after the paralysis
halving (the tailwind doubling of an integer is exact), i.e. for nonnegative
base speed it equals `2^[tailwind] * ⌊base × stage_mult × (1/2)^[paralyzed]⌋`;
the stage multipliers are the standard asymmetric table
`(2 + s)/2` for `s ≥ 0` and `2/(2 − s)` for `s < 0`. -/
theorem speed_modifiers_amended (base stage : ℤ) (par tw : Bool) (hb : 0 ≤ base) :
    applySpeedModifiers base stage par tw =
      (if tw then 2 else 1) *
        Int.floor ((base : ℚ) * stageMult stage * (if par then (1 : ℚ) / 2 else 1)) ∧
    (∀ s : ℤ, -6 ≤ s → s ≤ 6 →
      stageMult s = if 0 ≤ s then (2 + (s : ℚ)) / 2 else 2 / (2 - (s : ℚ))) := by
  constructor
  · unfold applySpeedModifiers
    have hm := stageMult_pos stage
    have h0 : (0 : ℚ) ≤ (base : ℚ) * stageMult stage :=
      mul_nonneg (by exact_mod_cast hb) hm.le
    rw [pyInt_of_nonneg h0]
    have hs1 : (0 : ℤ) ≤ ⌊(base : ℚ) * stageMult stage⌋ := Int.floor_nonneg.mpr h0
    cases par
    · cases tw
      · simp [mul_one]
      · simp only [if_true, if_false, Bool.false_eq_true, mul_one]
        rw [pyInt_of_nonneg (by positivity)]
        rw [show ((⌊(base : ℚ) * stageMult stage⌋ : ℤ) : ℚ) * 2 =
            (((2 * ⌊(base : ℚ) * stageMult stage⌋ : ℤ) : ℚ)) by push_cast; ring]
        exact Int.floor_intCast _
    · have hhalf : pyInt ((((⌊(base : ℚ) * stageMult stage⌋ : ℤ) : ℚ)) * (1 / 2)) =
          ⌊(base : ℚ) * stageMult stage * (1 / 2)⌋ := by
        rw [pyInt_of_nonneg (by positivity)]
        rw [show (((⌊(base : ℚ) * stageMult stage⌋ : ℤ) : ℚ)) * (1 / 2) =
            (((⌊(base : ℚ) * stageMult stage⌋ : ℤ) : ℚ)) / 2 by ring]
        rw [floor_half_floor]
        congr 1
        ring
      cases tw
      · simpa using hhalf
      · simp only [if_true]
        rw [hhalf]
        have hnn : (0 : ℤ) ≤ ⌊(base : ℚ) * stageMult stage * (1 / 2)⌋ :=
          Int.floor_nonneg.mpr (by positivity)
        rw [pyInt_of_nonneg (by positivity)]
        rw [show ((⌊(base : ℚ) * stageMult stage * (1 / 2)⌋ : ℤ) : ℚ) * 2 =
            (((2 * ⌊(base : ℚ) * stageMult stage * (1 / 2)⌋ : ℤ) : ℚ)) by push_cast; ring]
        exact Int.floor_intCast _
  · intro s hs1 hs2
    interval_cases s <;> norm_num [stageMult]

/-- Witness for C9 amended at base 17, stage −1, paralyzed, tailwind. -/
theorem speed_modifiers_amended_witness :
    applySpeedModifiers 17 (-1) true true =
      2 * Int.floor ((17 : ℚ) * stageMult (-1) * ((1 : ℚ) / 2)) ∧
    stageMult (-2) = 2 / (2 - ((-2 : ℤ) : ℚ)) := by
  have h := speed_modifiers_amended 17 (-1) true true (by decide)
  refine ⟨by simpa using h.1, by simpa using h.2 (-2) (by decide) (by decide)⟩

/-- Claim C10: `_calculate_with_variants` restores the attacker's and the
defender's `_item`/`_ability` fields to their pre-call values on every return
path, including when an individual calculation raises, so the shared battle
`Pokemon` objects are left unchanged. -/
theorem variants_restore_frame (attacker defender : PokeVar)
    (attacker_items defender_items : List (List Char))
    (attacker_abilities defender_abilities : List (Option (List Char)))
    (vary_attacker vary_defender : Bool)
    (calcSingle : PokeVar → PokeVar → Option (List Char) → Option (List Char) →
      Except Unit (Option DamageResultR)) :
    (calculateWithVariants attacker defender attacker_items defender_items
      attacker_abilities defender_abilities vary_attacker vary_defender calcSingle).2.1 =
      attacker ∧
    (calculateWithVariants attacker defender attacker_items defender_items
      attacker_abilities defender_abilities vary_attacker vary_defender calcSingle).2.2 =
      defender := by
  obtain ⟨aItem, aAb⟩ := attacker
  obtain ⟨dItem, dAb⟩ := defender
  simp only [calculateWithVariants]
  exact ⟨trivial, trivial⟩

/-- Claim C5 counterexample: the code assigns `state.is_fainted =
pokemon.fainted` from the snapshot, so a belief marked fainted is retracted
by an update whose snapshot reports the species as not fainted — the fainted
flag is not OR-ed in. -/
theorem fainted_flag_retracted_cex :
    cexBeliefState.is_fainted = true ∧ cexSnapshotMon.fainted = false ∧
    (updateTheirPokemon cexBeliefState cexSnapshotMon).is_fainted = false := by
  refine ⟨rfl, rfl, rfl⟩

/-- Claim C5 amended: after each per-turn update the belief's fainted flag
equals the snapshot's fainted flag (plain assignment, not an OR), so it is
monotone across turns exactly when the snapshot's fainted flags are. -/
theorem fainted_flag_mirrors_snapshot (st : PokemonStateR) (pk : SnapshotMon) :
    (updateTheirPokemon st pk).is_fainted = pk.fainted := by
  unfold updateTheirPokemon
  have h := foldl_addRevealedMove_fields pk.moves (updateDynamicState st pk)
  simp only [updateRevealedInfo]
  split_ifs <;> simpa using h.1

/-- Claim C6: revealed information only accumulates: every revealed move
survives an update, and a non-empty revealed item or ability is never
overwritten. -/
theorem revealed_info_monotone (st : PokemonStateR) (pk : SnapshotMon) :
    (∀ m, m ∈ st.revealed_moves → m ∈ (updateTheirPokemon st pk).revealed_moves) ∧
    (∀ a, st.revealed_ability = some a → a ≠ [] →
      (updateTheirPokemon st pk).revealed_ability = some a) ∧
    (∀ i, st.revealed_item = some i → i ≠ [] →
      (updateTheirPokemon st pk).revealed_item = some i) := by
  unfold updateTheirPokemon
  refine ⟨fun m hm => ?_, fun a ha hne => ?_, fun i hi hne => ?_⟩
  · exact updateRevealedInfo_moves_mem _ pk m hm
  · exact updateRevealedInfo_ability_keep _ pk a ha hne
  · exact updateRevealedInfo_item_keep _ pk i hi hne

/-- Witness for C6: the revealed move, ability and item of `wBeliefState`
survive the conflicting update `wSnapshotMon`. -/
theorem revealed_info_monotone_witness :
    ("surf".data) ∈ (updateTheirPokemon wBeliefState wSnapshotMon).revealed_moves ∧
    (updateTheirPokemon wBeliefState wSnapshotMon).revealed_ability =
      some ("levitate".data) ∧
    (updateTheirPokemon wBeliefState wSnapshotMon).revealed_item =
      some ("leftovers".data) := by
  have h := revealed_info_monotone wBeliefState wSnapshotMon
  exact ⟨h.1 _ (by decide), h.2.1 _ (by decide) (by decide), h.2.2 _ (by decide) (by decide)⟩

/-- Claim C7: a switch whose computed total incoming damage is at least its
current HP% is flagged `survives = False` with score −100, strictly below the
score of every surviving switch; a switch survives iff
`current_hp% − total_damage > 0`, and a surviving switch's score is 100 plus
`hp_after` plus the matchup bonuses. -/
theorem switch_score_survival (species : List Char) (hp_frac : ℚ)
    (ptypes : List (List Char)) (ability : Option (List Char))
    (sr : Bool) (spikes : ℕ) (their : Option (List Char))
    (emove : Option (List Char)) (tvb : List MatchupResultR)
    (mdata : Option MatchupData)
    (hrem : ∀ md, mdata = some md → 0 ≤ md.our_remaining_hp_percent) :
    ((calculateSwitchScore species hp_frac ptypes ability sr spikes their emove tvb
        mdata).survives = true ↔
      0 < hp_frac * 100 - (calculateSwitchScore species hp_frac ptypes ability sr spikes
        their emove tvb mdata).total_damage) ∧
    (hp_frac * 100 ≤ (calculateSwitchScore species hp_frac ptypes ability sr spikes
        their emove tvb mdata).total_damage →
      (calculateSwitchScore species hp_frac ptypes ability sr spikes their emove tvb
        mdata).survives = false ∧
      (calculateSwitchScore species hp_frac ptypes ability sr spikes their emove tvb
        mdata).score = -100) ∧
    ((calculateSwitchScore species hp_frac ptypes ability sr spikes their emove tvb
        mdata).survives = true →
      -100 < (calculateSwitchScore species hp_frac ptypes ability sr spikes their emove
        tvb mdata).score ∧
      (calculateSwitchScore species hp_frac ptypes ability sr spikes their emove tvb
        mdata).score =
        100 + (calculateSwitchScore species hp_frac ptypes ability sr spikes their emove
          tvb mdata).hp_after +
          (if (mdata.map fun md => md.outcome) = some "win" then
            50 + ((mdata.map fun md => md.our_remaining_hp_percent).getD 0) / 2
          else if (mdata.map fun md => md.outcome) = some "draw" then 25 else 0)) := by
  have e1 : (calculateSwitchScore species hp_frac ptypes ability sr spikes their emove tvb
      mdata).total_damage =
      calculateHazardDamage ptypes ability sr spikes +
        computeMoveDamage species their emove tvb := rfl
  have e2 : (calculateSwitchScore species hp_frac ptypes ability sr spikes their emove tvb
      mdata).survives =
      decide (0 < hp_frac * 100 - (calculateHazardDamage ptypes ability sr spikes +
        computeMoveDamage species their emove tvb)) := rfl
  have e3 : (calculateSwitchScore species hp_frac ptypes ability sr spikes their emove tvb
      mdata).hp_after =
      max 0 (hp_frac * 100 - (calculateHazardDamage ptypes ability sr spikes +
        computeMoveDamage species their emove tvb)) := rfl
  have e4 : (calculateSwitchScore species hp_frac ptypes ability sr spikes their emove tvb
      mdata).score =
      (if decide (0 < hp_frac * 100 - (calculateHazardDamage ptypes ability sr spikes +
          computeMoveDamage species their emove tvb)) = true then
        (if (mdata.map fun md => md.outcome) = some "win" then
          (100 + max 0 (hp_frac * 100 - (calculateHazardDamage ptypes ability sr spikes +
            computeMoveDamage species their emove tvb))) + 50 +
            ((mdata.map fun md => md.our_remaining_hp_percent).getD 0) / 2
        else if (mdata.map fun md => md.outcome) = some "draw" then
          (100 + max 0 (hp_frac * 100 - (calculateHazardDamage ptypes ability sr spikes +
            computeMoveDamage species their emove tvb))) + 25
        else
          (100 + max 0 (hp_frac * 100 - (calculateHazardDamage ptypes ability sr spikes +
            computeMoveDamage species their emove tvb))))
      else -100) := rfl
  have hhp : (0 : ℚ) ≤ max 0 (hp_frac * 100 - (calculateHazardDamage ptypes ability sr spikes +
      computeMoveDamage species their emove tvb)) :=
    le_max_left _ _
  have hbonus : (0 : ℚ) ≤
      (if (mdata.map fun md => md.outcome) = some "win" then
        50 + ((mdata.map fun md => md.our_remaining_hp_percent).getD 0) / 2
      else if (mdata.map fun md => md.outcome) = some "draw" then 25 else 0) := by
    split_ifs with hw hd
    · rcases mdata with _ | md
      · simp at hw
      · have hr := hrem md rfl
        have hg : ((Option.map (fun md => md.our_remaining_hp_percent) (some md)).getD 0) =
            md.our_remaining_hp_percent := rfl
        rw [hg]
        linarith
    · norm_num
    · exact le_refl 0
  refine ⟨?_, ?_, ?_⟩
  · rw [e2, e1]
    simp [decide_eq_true_eq]
  · intro h
    rw [e1] at h
    have hns : ¬ (0 < hp_frac * 100 - (calculateHazardDamage ptypes ability sr spikes +
        computeMoveDamage species their emove tvb)) := by linarith
    rw [e2, e4]
    constructor
    · simp [hns]
    · rw [if_neg (by simpa using hns)]
  · intro hs
    rw [e2] at hs
    rw [e4, e3, if_pos hs]
    constructor
    · split_ifs with hw hd
      · have hb := hbonus
        rw [if_pos hw] at hb
        linarith
      · linarith
      · linarith
    · split_ifs with hw hd <;> ring

theorem searchActionAux_of_no_marker : ∀ (s : List Char),
    hasSubstr ("action:".data) (lowerList s) = false → searchActionAux s = none := by
  intro s
  induction s with
  | nil => intro h; rfl
  | cons c r ih =>
    intro h
    rw [show lowerList (c :: r) = pyToLower c :: lowerList r from rfl] at h
    rw [show hasSubstr ("action:".data) (pyToLower c :: lowerList r) =
        ((("action:".data).isPrefixOf (pyToLower c :: lowerList r)) ||
          hasSubstr ("action:".data) (lowerList r)) from rfl] at h
    rw [Bool.or_eq_false_iff] at h
    obtain ⟨h1, h2⟩ := h
    unfold searchActionAux
    rw [show lowerList (c :: r) = pyToLower c :: lowerList r from rfl, h1]
    simp only [Bool.false_eq_true, if_false]
    exact ih h2

/-- Claim C3: the response parser is a total function of the input string (it
never raises), and on any input with no case-insensitive `ACTION:` marker it
yields a move-kind result with a null target, the documented signal for the
caller's last-resort default. -/
theorem parser_total_and_fallback (s : List Char) :
    ((parseDecisionNode s).action_type = "move" ∨
      (parseDecisionNode s).action_type = "switch") ∧
    (hasSubstr ("action:".data) (lowerList s) = false →
      (parseDecisionNode s).action_type = "move" ∧
      (parseDecisionNode s).action_target = none) := by
  constructor
  · unfold parseDecisionNode
    cases hact : searchActionAux s with
    | none => simp only [hact]; left; trivial
    | some cap =>
      simp only [hact]
      by_cases hsw : hasSubstr ("switch".data) (lowerList (pyStrip cap)) = true
      · rw [if_pos hsw]; right; rfl
      · rw [if_neg hsw]; left; rfl
  · intro h
    have hnone : searchActionAux s = none := searchActionAux_of_no_marker s h
    unfold parseDecisionNode
    simp only [hnone]
    exact ⟨trivial, trivial⟩

/-- Witness for C3 on the markerless input `"hello there"`. -/
theorem parser_total_and_fallback_witness :
    (parseDecisionNode ("hello there".data)).action_type = "move" ∧
    (parseDecisionNode ("hello there".data)).action_target = none :=
  (parser_total_and_fallback ("hello there".data)).2 (by decide)

/-- Claim C1: when the LLM raises, the decision stage substitutes the
fallback response (first legal move, else a switch to the first legal bench
Pokemon, else the universal Struggle action); parsing that response and
executing it always yields an order for some legal move or switch whenever
one exists. -/
theorem pipeline_fallback_legal (ms ss : List (List Char)) (hne : ms ≠ [] ∨ ss ≠ []) :
    ∃ o,
      executeAction
        (parseDecisionNode (createFallbackResponse ms ss)).action_type
        (parseDecisionNode (createFallbackResponse ms ss)).action_target
        ms ss = Except.ok o ∧
      ((∃ m ∈ ms, o = Order.useMove m) ∨ (∃ p ∈ ss, o = Order.useSwitch p)) :=
  executeAction_ok _ _ ms ss (parse_target_ok (createFallbackResponse ms ss)) hne

/-- Witness for C1 with one legal move and one legal switch. -/
theorem pipeline_fallback_legal_witness :
    ∃ o,
      executeAction
        (parseDecisionNode (createFallbackResponse [("tackle".data)] [("pikachu".data)])).action_type
        (parseDecisionNode (createFallbackResponse [("tackle".data)] [("pikachu".data)])).action_target
        [("tackle".data)] [("pikachu".data)] = Except.ok o ∧
      ((∃ m ∈ [("tackle".data)], o = Order.useMove m) ∨
        (∃ p ∈ [("pikachu".data)], o = Order.useSwitch p)) :=
  pipeline_fallback_legal [("tackle".data)] [("pikachu".data)] (Or.inl (by simp))

theorem prefix_of_append_of_le {p A B : List Char} (hp : p <+: A ++ B)
    (hlen : p.length ≤ A.length) : p <+: A := by
  rw [ List.prefix_iff_eq_take] at hp ⊢
  calc p = (A ++ B).take p.length := hp
    _ = A.take p.length := List.take_append_of_le_length hlen

theorem not_prefix_cross_nl (A B : List Char)
    (hA : ¬ (("action:".data) <+: A)) (hB : B.head? = some '\n') :
    ¬ (("action:".data) <+: A ++ B) := by
  intro hp
  by_cases hlen : ("action:".data).length ≤ A.length
  · exact hA (prefix_of_append_of_le hp hlen)
  · push_neg at hlen
    obtain ⟨ys, hys⟩ := List.head?_eq_some_iff.mp hB
    have hAB : A.length < (A ++ B).length := by
      have := hp.length_le
      omega
    have h1 : ("action:".data).get ⟨A.length, hlen⟩ = (A ++ B).get ⟨A.length, hAB⟩ :=
      hp.getElem hlen
    have h2 : (A ++ B).get ⟨A.length, hAB⟩ = '\n' := by
      rw [ List.get_eq_getElem]
      rw [ List.getElem_append_right (le_refl A.length)]
      subst hys
      simp
    have hmem : '\n' ∈ ("action:".data) := by
      rw [← h2, ← h1, List.get_eq_getElem]
      exact List.getElem_mem _
    exact absurd hmem (by decide)

theorem firstOcc_boundary (p0 : Char) (pr : List Char) :
    ∀ (a rest : List Char), p0 ∉ a → (p0 :: pr).isPrefixOf rest = true →
    firstOcc (p0 :: pr) (a ++ rest) = some a.length := by
  intro a
  induction a with
  | nil =>
    intro rest h0 hpre
    cases rest with
    | nil => simp at hpre
    | cons c r =>
      show firstOcc (p0 :: pr) (c :: r) = some 0
      unfold firstOcc
      rw [if_pos hpre]
  | cons y a' ih =>
    intro rest h0 hpre
    have hy : ¬ (p0 = y) := fun he => h0 (he ▸ List.mem_cons_self y a')
    show firstOcc (p0 :: pr) (y :: (a' ++ rest)) = some (a'.length + 1)
    unfold firstOcc
    rw [if_neg (by simp [ List.isPrefixOf_cons₂, hy])]
    rw [ih rest (fun hm => h0 (List.mem_cons_of_mem _ hm)) hpre]
    rfl

theorem no_prefix_drop_of_hasSubstr_false (pat : List Char) :
    ∀ (l : List Char), hasSubstr pat l = false → ∀ j, ¬ (pat <+: l.drop j) := by
  intro l
  induction l with
  | nil =>
    intro h j hp
    simp only [ List.drop_nil] at hp
    have hnil : pat = [] := List.prefix_nil.mp hp
    subst hnil
    simp [hasSubstr] at h
  | cons c r ih =>
    intro h j hp
    rw [show hasSubstr pat (c :: r) = (pat.isPrefixOf (c :: r) || hasSubstr pat r) from rfl,
      Bool.or_eq_false_iff] at h
    cases j with
    | zero =>
      have h2 := List.isPrefixOf_iff_prefix.mpr (by simpa using hp)
      rw [h.1] at h2
      exact absurd h2 (by decide)
    | succ j' => exact ih h.2 j' (by simpa using hp)

theorem no_prefix_at_of_last (pat A B : List Char) (z : Char)
    (hA : ∀ i, i < A.length → ¬ (pat <+: A.drop i))
    (hz : A.getLast? = some z) (hzp : z ∉ pat) :
    ∀ i, i < A.length → ¬ (pat <+: (A ++ B).drop i) := by
  intro i hi hp
  rw [ List.drop_append_of_le_length (le_of_lt hi)] at hp
  by_cases hlen : pat.length ≤ (A.drop i).length
  · exact hA i hi (prefix_of_append_of_le hp hlen)
  · push_neg at hlen
    have hD : (A.drop i) <+: pat := by
      have h1 := List.prefix_iff_eq_take.mp hp
      have h2 : A.drop i = pat.take (A.drop i).length := by
        calc A.drop i = ((A.drop i) ++ B).take (A.drop i).length :=
              (List.take_left' rfl).symm
          _ = pat.take (A.drop i).length := by
              rw [h1, List.take_take, min_eq_left (le_of_lt hlen)]
      rw [h2]
      exact List.take_prefix _ _
    have hne : A.drop i ≠ [] := by
      intro h
      have := congrArg List.length h
      simp at this
      omega
    have hlast : (A.drop i).getLast? = some z := by
      rw [← hz]
      conv_rhs => rw [← List.take_append_drop i A]
      rw [ List.getLast?_append]
      cases hgl : (A.drop i).getLast? with
      | none => exact absurd (List.getLast?_eq_none_iff.mp hgl) hne
      | some w => simp [hgl]
    have hzD : z ∈ A.drop i := List.mem_of_getLast?_eq_some hlast
    exact hzp (List.IsPrefix.mem hzD hD)

theorem searchActionAux_cons (c : Char) (r : List Char) :
    searchActionAux (c :: r) =
      (if ("action:".data).isPrefixOf (lowerList (c :: r)) = true then
        match captureAfter ((c :: r).drop 7) with
        | some cap => some cap
        | none => searchActionAux r
      else searchActionAux r) := rfl

theorem searchActionAux_append (a b : List Char)
    (h : ∀ i, i < a.length → ¬ (("action:".data) <+: (lowerList (a ++ b)).drop i)) :
    searchActionAux (a ++ b) = searchActionAux b := by
  induction a with
  | nil => rfl
  | cons c a' ih =>
    have h0 : ¬ (("action:".data) <+: lowerList ((c :: a') ++ b)) := by
      have := h 0 (by simp)
      simpa using this
    show searchActionAux (c :: (a' ++ b)) = searchActionAux b
    rw [searchActionAux_cons]
    rw [if_neg (by simpa using h0)]
    exact ih (fun i hi => by
      have hh := h (i + 1) (by simp; omega)
      rw [show lowerList ((c :: a') ++ b) = pyToLower c :: lowerList (a' ++ b) from rfl]
        at hh
      simpa using hh)

theorem searchReasoningAux_cons (c : Char) (r : List Char) :
    searchReasoningAux (c :: r) =
      (if ("reasoning:".data).isPrefixOf (lowerList (c :: r)) = true then
        match captureReasoning ((c :: r).drop 10) with
        | some cap => some cap
        | none => searchReasoningAux r
      else searchReasoningAux r) := rfl

theorem captureReasoning_space_cons (c : Char) (rr : List Char) (hc : isPySpace c = false) :
    captureReasoning (' ' :: c :: rr) =
      (match firstOcc ("\naction:".data) (lowerList rr) with
       | some k => some ((c :: rr).take (k + 1))
       | none => some (c :: rr)) := by
  simp only [captureReasoning, List.takeWhile_cons]
  rw [show isPySpace ' ' = true from rfl, hc]
  simp

theorem searchReasoning_concrete (c : Char) (xs : List Char)
    (hc : isPySpace c = false) (hnl : '\n' ∉ (c :: xs)) :
    searchReasoningAux
      (("REASONING: ".data) ++ (c :: xs) ++ ("\nACTION: Earthquake".data)) =
      some (c :: xs) := by
  rw [show ("REASONING: ".data) ++ (c :: xs) ++ ("\nACTION: Earthquake".data) =
      'R' :: 'E' :: 'A' :: 'S' :: 'O' :: 'N' :: 'I' :: 'N' :: 'G' :: ':' :: ' ' ::
        (c :: (xs ++ ("\nACTION: Earthquake".data))) from rfl]
  rw [searchReasoningAux_cons]
  rw [if_pos ?hguard]
  case hguard =>
    simp only [ List.isPrefixOf_iff_prefix]
    exact ⟨' ' :: lowerList (c :: (xs ++ ("\nACTION: Earthquake".data))), rfl⟩
  rw [show ('R' :: 'E' :: 'A' :: 'S' :: 'O' :: 'N' :: 'I' :: 'N' :: 'G' :: ':' :: ' ' ::
      (c :: (xs ++ ("\nACTION: Earthquake".data)))).drop 10 =
      ' ' :: c :: (xs ++ ("\nACTION: Earthquake".data)) from rfl]
  rw [captureReasoning_space_cons c _ hc]
  rw [show lowerList (xs ++ ("\nACTION: Earthquake".data)) =
      lowerList xs ++ lowerList ("\nACTION: Earthquake".data) from List.map_append _ _ _]
  rw [show lowerList ("\nACTION: Earthquake".data) = "\naction: earthquake".data from by
    decide]
  rw [show ("\naction:".data) = '\n' :: ("action:".data) from rfl]
  rw [firstOcc_boundary '\n' ("action:".data) (lowerList xs) ("\naction: earthquake".data)
    (nl_not_mem_lowerList (fun hm => hnl (List.mem_cons_of_mem _ hm))) (by decide)]
  show some ((c :: (xs ++ ("\nACTION: Earthquake".data))).take ((lowerList xs).length + 1)) =
    some (c :: xs)
  simp only [lowerList, List.length_map]
  rw [ List.take_succ_cons, List.take_left]

/-- Witness for C7 with no incoming damage and no matchup data. -/
theorem switch_score_survival_witness :
    (calculateSwitchScore ("pikachu".data) 1 [] none false 0 none none [] none).survives =
      true ∧
    -100 < (calculateSwitchScore ("pikachu".data) 1 [] none false 0 none none []
      none).score := by
  have h := switch_score_survival ("pikachu".data) 1 [] none false 0 none none [] none
    (fun md hmd => by cases hmd)
  have h1 : calculateHazardDamage [] none false 0 = 0 := rfl
  have h2 : computeMoveDamage ("pikachu".data) none none [] = 0 := rfl
  have hs : (calculateSwitchScore ("pikachu".data) 1 [] none false 0 none none []
      none).survives = true := by
    rw [show (calculateSwitchScore ("pikachu".data) 1 [] none false 0 none none []
        none).survives =
      decide (0 < (1 : ℚ) * 100 - (calculateHazardDamage [] none false 0 +
        computeMoveDamage ("pikachu".data) none none [])) from rfl]
    rw [h1, h2]
    simp only [decide_eq_true_eq]
    norm_num
  exact ⟨hs, (h.2.2 hs).1⟩

/-- Claim C4: for a well-formed input `"REASONING: x\nACTION: Earthquake"`
(with `x` a nonempty stripped newline-free line of at most 280 characters
that does not itself contain the marker `action:`), the parser yields a
move-kind result with target `"earthquake"` and reasoning `x`; and on
`"ACTION: Switch to Gastrodon"` it yields a switch-kind result with target
`"gastrodon"` taken from the text after the `"switch to"` sub-marker. -/
theorem parser_round_trip (x : List Char) (hne : x ≠ []) (hstrip : pyStrip x = x)
    (hlen : x.length ≤ 280)
    (hnoact : hasSubstr ("action:".data) (lowerList x) = false)
    (hnl : '\n' ∉ x) :
    parseDecisionNode (("REASONING: ".data) ++ x ++ ("\nACTION: Earthquake".data)) =
      { action_type := "move", action_target := some ("earthquake".data),
        reasoning := some x, error := false } ∧
    parseDecisionNode ("ACTION: Switch to Gastrodon".data) =
      { action_type := "switch", action_target := some ("gastrodon".data),
        reasoning := none, error := false } := by
  constructor
  · obtain ⟨c, xs, rfl⟩ : ∃ c xs, x = c :: xs := by
      cases x with
      | nil => exact absurd rfl hne
      | cons c xs => exact ⟨c, xs, rfl⟩
    have hc : isPySpace c = false := pyStrip_head hstrip
    have hsr := searchReasoning_concrete c xs hc hnl
    have hdisp : ∀ i, i < (("REASONING: ".data) ++ (c :: xs)).length →
        ¬ (("action:".data) <+:
          (lowerList ((("REASONING: ".data) ++ (c :: xs)) ++
            ("\nACTION: Earthquake".data))).drop i) := by
      intro i hi
      rw [ List.length_append] at hi
      rw [show ("REASONING: ".data).length = 11 from rfl] at hi
      have hrw : lowerList ((("REASONING: ".data) ++ (c :: xs)) ++
          ("\nACTION: Earthquake".data)) =
          ("reasoning: ".data) ++ (lowerList (c :: xs) ++ ("\naction: earthquake".data)) := by
        rw [show (("REASONING: ".data) ++ (c :: xs)) ++ ("\nACTION: Earthquake".data) =
            ("REASONING: ".data) ++ ((c :: xs) ++ ("\nACTION: Earthquake".data)) from
          List.append_assoc _ _ _]
        rw [show lowerList (("REASONING: ".data) ++
            ((c :: xs) ++ ("\nACTION: Earthquake".data))) =
            lowerList ("REASONING: ".data) ++
              lowerList ((c :: xs) ++ ("\nACTION: Earthquake".data)) from
          List.map_append _ _ _]
        rw [show lowerList ((c :: xs) ++ ("\nACTION: Earthquake".data)) =
            lowerList (c :: xs) ++ lowerList ("\nACTION: Earthquake".data) from
          List.map_append _ _ _]
        rw [show lowerList ("REASONING: ".data) = "reasoning: ".data from by decide]
        rw [show lowerList ("\nACTION: Earthquake".data) = "\naction: earthquake".data from by
          decide]
      rw [hrw]
      by_cases h11 : i < 11
      · exact no_prefix_at_of_last ("action:".data) ("reasoning: ".data)
          (lowerList (c :: xs) ++ ("\naction: earthquake".data)) ' '
          (by decide) (by decide) (by decide) i h11
      · push_neg at h11
        have hj : i - 11 < (lowerList (c :: xs)).length := by
          simp only [lowerList, List.length_map]
          simp only [ List.length_cons] at hi ⊢
          omega
        intro hp
        rw [show i = ("reasoning: ".data).length + (i - 11) from by
          rw [show ("reasoning: ".data).length = 11 from rfl]; omega] at hp
        rw [ List.drop_append] at hp
        rw [ List.drop_append_of_le_length (le_of_lt hj)] at hp
        exact not_prefix_cross_nl _ _
          (no_prefix_drop_of_hasSubstr_false _ _ hnoact (i - 11))
          (show ("\naction: earthquake".data).head? = some '\n' from rfl) hp
    have hsa : searchActionAux ((("REASONING: ".data) ++ (c :: xs)) ++
        ("\nACTION: Earthquake".data)) = some ("Earthquake".data) := by
      rw [searchActionAux_append _ _ hdisp]
      decide
    simp only [parseDecisionNode, hsr, hsa, hstrip,
      show (hasSubstr ("switch".data) (lowerList (pyStrip ("Earthquake".data)))) = false from by
        decide,
      Bool.false_eq_true, if_false]
    rw [if_neg (by omega : ¬ (280 < (c :: xs).length))]
    rw [show pyStrip (pySubDash (pySubParen (lowerList (pyStrip ("Earthquake".data))))) =
        "earthquake".data from by decide]
  · decide

/-- Witness for C4 with `x := "Hit hard"`. -/
theorem parser_round_trip_witness :
    parseDecisionNode (("REASONING: ".data) ++ ("Hit hard".data) ++
        ("\nACTION: Earthquake".data)) =
      { action_type := "move", action_target := some ("earthquake".data),
        reasoning := some ("Hit hard".data), error := false } :=
  (parser_round_trip ("Hit hard".data) (by decide) (by decide) (by decide) (by decide)
    (by decide)).1

end TailGlow
